import Mathlib

/-!
Verification of the account core of the iota.go client library.

Each Go function relevant to the analysed properties is shallowly embedded
as an executable Lean definition, translated from the corresponding source
file.  External collaborators (the node RPC API, the clock, the seed
provider, the MongoDB driver, the Go standard library) are embedded through
explicit oracle parameters or through models of their documented behaviour.
-/

namespace IotaAccount

/-! ## Go standard library fragments

Models of the pieces of the Go standard library used by
account/deposit/deposit.go: strconv.ParseInt / strconv.ParseUint (base 10,
bit size 64) and the parts of net/url.Parse and url.Values.Get exercised by
magnet links of the shape scheme://host/path?query.  Strings are handled
through their character lists.
-/

/-- Value of a non-empty list of decimal digit characters; none if the list
is empty or holds a non-digit. -/
def decDigitsVal? (cs : List Char) : Option Nat :=
  match cs with
  | [] => none
  | _ :: _ =>
    cs.foldl
      (fun acc c =>
        acc.bind (fun n => if c.isDigit then some (n * 10 + (c.toNat - 48)) else none))
      (some 0)

/-- Model of Go strconv.ParseInt(s, 10, 64): optional sign, at least one
digit, all digits, result within the int64 range. -/
def goParseInt64 (s : String) : Option Int :=
  match s.data with
  | '-' :: rest =>
    (decDigitsVal? rest).bind (fun n => if n ≤ 2 ^ 63 then some (-(n : Int)) else none)
  | '+' :: rest =>
    (decDigitsVal? rest).bind (fun n => if n < 2 ^ 63 then some (n : Int) else none)
  | l =>
    (decDigitsVal? l).bind (fun n => if n < 2 ^ 63 then some (n : Int) else none)

/-- Model of Go strconv.ParseUint(s, 10, 64): no sign permitted, at least
one digit, all digits, result below 2^64. -/
def goParseUint64 (s : String) : Option Nat :=
  (decDigitsVal? s.data).bind (fun n => if n < 2 ^ 64 then some n else none)

/-- Characters after the first occurrence of the scheme separator
colon-slash-slash; empty if there is none. -/
def afterSchemeSep : List Char → List Char
  | ':' :: '/' :: '/' :: rest => rest
  | _ :: rest => afterSchemeSep rest
  | [] => []

/-- Host component of a URL of the shape scheme://host/path?query, as
extracted by Go net/url.Parse: the characters after the scheme separator up
to the first slash, question mark or number sign. -/
def urlHostOf (s : String) : String :=
  String.mk ((afterSchemeSep s.data).takeWhile
    (fun c => !(c == '/' || c == '?' || c == '#')))

/-- Raw query component of a URL: the characters after the first question
mark; empty if there is none. -/
def urlRawQueryOf (s : String) : List Char :=
  (s.data.dropWhile (fun c => !(c == '?'))).drop 1

/-- Split a character list on a separator character. -/
def splitOnChar (sep : Char) : List Char → List (List Char)
  | [] => [[]]
  | c :: rest =>
    let r := splitOnChar sep rest
    if c == sep then [] :: r
    else
      match r with
      | g :: gs => (c :: g) :: gs
      | [] => [[c]]

/-- Model of Go url.Values.Get on a raw query: split the query on
ampersands, split every component at its first equals sign, return the
first value whose key matches, or the empty string.  (Percent-unescaping is
omitted: magnet links of this codec contain no escapes.) -/
def queryGet (rawQuery : List Char) (key : String) : String :=
  match (splitOnChar '&' rawQuery).filterMap
      (fun p =>
        let k := p.takeWhile (fun c => !(c == '='))
        let v := (p.dropWhile (fun c => !(c == '='))).drop 1
        if k = key.data then some v else none) with
  | [] => ""
  | v :: _ => String.mk v

/-! ## account/deposit/deposit.go -/

/-- deposit.Request.  TimeoutAt is modelled by its unix-seconds value (the
code only ever passes it through time.Time.Unix and time.Unix). -/
structure Request where
  timeoutAt : Option Int
  multiUse : Bool
  expectedAmount : Option Nat
  deriving DecidableEq, Repr

/-- deposit.Conditions: a Request together with the deposit address. -/
structure Conditions extends Request where
  address : String
  deriving DecidableEq, Repr

/-- Conditions.AsMagnetLink from deposit.go.  The Go code formats with
fmt.Sprintf("iota://%s/?t=%d&m=%v&am=%d", dc.Address, dc.TimeoutAt.Unix(),
dc.MultiUse, dc.ExpectedAmount).  Two source facts are embedded here:
dc.TimeoutAt.Unix() dereferences the TimeoutAt pointer, so a nil TimeoutAt
panics (modelled as none); and the am verb receives the ExpectedAmount
pointer itself, not its target, and the Go fmt package formats a pointer
under %d as the pointer's numeric value.  That machine-dependent numeral is
the explicit parameter amPtrVal. -/
def asMagnetLink (dc : Conditions) (amPtrVal : Nat) : Option String :=
  match dc.timeoutAt with
  | none => none
  | some t =>
    some ("iota://" ++ dc.address ++ "/?t=" ++ toString t ++ "&m=" ++
      (if dc.multiUse then "true" else "false") ++ "&am=" ++ toString amPtrVal)

/-- consts.AddressWithChecksumTrytesSize. -/
def addressWithChecksumTrytesSize : Nat := 90

/-- ParseMagnetLink from deposit.go.  The Go function builds a fresh
Conditions value (whose Address field keeps its zero value, the empty
string), validates the host length, parses the t, m and am query
parameters, and never assigns the parsed host to the Address field. -/
def parseMagnetLink (s : String) : Except String Conditions :=
  let host := urlHostOf s
  let query := urlRawQueryOf s
  if host.length ≠ addressWithChecksumTrytesSize then
    Except.error "address must be 90 trytes long"
  else
    match goParseInt64 (queryGet query "t") with
    | none => Except.error "invalid expire timestamp"
    | some expire =>
      let multiUse := queryGet query "m" = "true"
      match goParseUint64 (queryGet query "am") with
      | none => Except.error "invalid expected amount"
      | some amount =>
        Except.ok { timeoutAt := some expire, multiUse := multiUse,
                    expectedAmount := some amount, address := "" }

/-- A concrete valid deposit address: ninety letter-A trytes. -/
def sampleAddr : String := String.mk (List.replicate 90 'A')

/-- A concrete valid Conditions value with non-nil TimeoutAt and non-nil
ExpectedAmount. -/
def sampleConditions : Conditions :=
  { timeoutAt := some 1000000, multiUse := true,
    expectedAmount := some 1337, address := sampleAddr }

/-- The Conditions value that ParseMagnetLink actually produces for the
magnet link of sampleConditions: the timeout, multi-use flag round-trip,
the amount field carries the pointer numeral, and the address is empty. -/
def sampleParsedConditions (amPtrVal : Nat) : Conditions :=
  { timeoutAt := some 1000000, multiUse := true,
    expectedAmount := some amPtrVal, address := "" }

/-! ## Association-list helpers

Used below to model both MongoDB documents (string-keyed sub-documents)
and the abstract account state (map fields). -/

/-- Set a key to a value: update in place when present, append otherwise
(matching how a document or map field update behaves). -/
def assocSet [DecidableEq κ] : List (κ × α) → κ → α → List (κ × α)
  | [], k, v => [(k, v)]
  | (k0, v0) :: rest, k, v =>
    if k0 = k then (k, v) :: rest else (k0, v0) :: assocSet rest k v

/-- Look a key up. -/
def assocGet [DecidableEq κ] : List (κ × α) → κ → Option α
  | [], _ => none
  | (k0, v0) :: rest, k => if k0 = k then some v0 else assocGet rest k

/-- Remove a key. -/
def assocUnset [DecidableEq κ] (l : List (κ × α)) (k : κ) : List (κ × α) :=
  l.filter (fun p => !(p.1 = k))

/-! ## account/store types (shared by the store back-ends)

store.PendingTransfer and store.StoredDepositRequest from the account/store
package.  Trytes and hashes are modelled as strings. -/

/-- store.PendingTransfer: the compressed bundle trytes plus the list of
tail hashes, ordered from oldest to newest. -/
structure PendingTransfer where
  bundle : List String
  tails : List String
  deriving DecidableEq, Repr

/-- store.StoredDepositRequest: a deposit Request plus its security
level. -/
structure StoredDepositRequest where
  securityLevel : Nat
  request : Request
  deriving DecidableEq, Repr

/-- Modelled from the spec: store.TrytesToPendingTransfer (package
account/store, whose source is not under src/) compresses the given signed
bundle trytes into a PendingTransfer record whose tails list starts empty;
the callers append tail hashes afterwards.  The compression itself is kept
abstract: the bundle field holds the trytes. -/
def trytesToPendingTransfer (bundleTrytes : List String) : PendingTransfer :=
  { bundle := bundleTrytes, tails := [] }

/-! ## account/store/mongo/mongo.go

The MongoDB store keeps one document per account, keyed by the account id.
A collection is modelled as a partial map from ids to documents, and each
store method as the mongo-go-driver call it performs: UpdateOne without an
upsert option updates the first document matching the filter and reports no
error when nothing matches.  Driver/network failures are outside the model;
the error component below is the store-level error the method returns. -/

/-- The per-account document of the MongoDB store (the accountstate struct
of mongo.go): deposit requests are keyed by the decimal string of their key
index, pending transfers by the origin tail hash. -/
structure AccountDoc where
  keyIndex : Nat
  depositRequests : List (String × StoredDepositRequest)
  pendingTransfers : List (String × PendingTransfer)
  deriving DecidableEq, Repr

/-- The store errors surfaced by the store package. -/
inductive StoreErr where
  | accountNotFound
  | pendingTransferNotFound
  deriving DecidableEq, Repr

/-- A MongoDB collection of account documents, keyed by the _id field. -/
abbrev MongoColl := String → Option AccountDoc

/-- The empty account document inserted by LoadAccount (newaccountstate in
mongo.go). -/
def emptyAccountDoc : AccountDoc :=
  { keyIndex := 0, depositRequests := [], pendingTransfers := [] }

/-- UpdateOne with the filter _id = id and no upsert: when the document
exists it is rewritten through f, otherwise nothing happens and no error is
reported. -/
def updateDoc (coll : MongoColl) (id : String) (f : AccountDoc → AccountDoc) : MongoColl :=
  match coll id with
  | none => coll
  | some doc => fun i => if i = id then some (f doc) else coll i

/-- MongoStore.LoadAccount: return the stored document, or insert and
return an empty one. -/
def mongoLoadAccount (coll : MongoColl) (id : String) : MongoColl × AccountDoc :=
  match coll id with
  | some doc => (coll, doc)
  | none => ((fun i => if i = id then some emptyAccountDoc else coll i), emptyAccountDoc)

/-- MongoStore.RemoveAccount: DeleteOne on _id; ErrAccountNotFound when the
deleted count is zero. -/
def mongoRemoveAccount (coll : MongoColl) (id : String) : MongoColl × Option StoreErr :=
  match coll id with
  | none => (coll, some StoreErr.accountNotFound)
  | some _ => ((fun i => if i = id then none else coll i), none)

/-- MongoStore.WriteIndex: a set mutation on the key_index field. -/
def mongoWriteIndex (coll : MongoColl) (id : String) (index : Nat) : MongoColl :=
  updateDoc coll id (fun doc => { doc with keyIndex := index })

/-- MongoStore.AddDepositRequest: a set mutation on the
deposit_requests.index field. -/
def mongoAddDepositRequest (coll : MongoColl) (id : String) (index : Nat)
    (req : StoredDepositRequest) : MongoColl :=
  updateDoc coll id (fun doc =>
    { doc with depositRequests := assocSet doc.depositRequests (toString index) req })

/-- MongoStore.RemoveDepositRequest: an unset mutation on the
deposit_requests.index field. -/
def mongoRemoveDepositRequest (coll : MongoColl) (id : String) (index : Nat) : MongoColl :=
  updateDoc coll id (fun doc =>
    { doc with depositRequests := assocUnset doc.depositRequests (toString index) })

/-- MongoStore.AddPendingTransfer: one UpdateOne that sets
pending_transfers.originTail to a fresh record whose tails list holds
exactly the origin tail (TrytesToPendingTransfer followed by the append in
mongo.go), and unsets every given deposit request index. -/
def mongoAddPendingTransfer (coll : MongoColl) (id : String) (originTailTxHash : String)
    (bundleTrytes : List String) (indices : List Nat) : MongoColl :=
  let pt0 := trytesToPendingTransfer bundleTrytes
  let pt := { pt0 with tails := pt0.tails ++ [originTailTxHash] }
  updateDoc coll id (fun doc =>
    { doc with
      pendingTransfers := assocSet doc.pendingTransfers originTailTxHash pt,
      depositRequests :=
        indices.foldl (fun l index => assocUnset l (toString index)) doc.depositRequests })

/-- MongoStore.RemovePendingTransfer: an unset mutation on the
pending_transfers.originTail field. -/
def mongoRemovePendingTransfer (coll : MongoColl) (id : String)
    (originTailTxHash : String) : MongoColl :=
  updateDoc coll id (fun doc =>
    { doc with pendingTransfers := assocUnset doc.pendingTransfers originTailTxHash })

/-- MongoStore.AddTailHash: an UpdateOne whose filter requires both _id =
id and that the pending_transfers.originTail field exists, performing an
addToSet mutation on its tails array (append at the end unless the value is
already present).  Without an upsert option the update matches nothing when
the transfer is absent — and then the driver still reports no error; the Go
method never inspects the matched count, so it returns nil either way. -/
def mongoAddTailHash (coll : MongoColl) (id : String) (originTailTxHash : String)
    (newTailTxHash : String) : MongoColl × Option StoreErr :=
  match coll id with
  | none => (coll, none)
  | some doc =>
    match assocGet doc.pendingTransfers originTailTxHash with
    | none => (coll, none)
    | some pt =>
      let pt2 := { pt with
        tails := if newTailTxHash ∈ pt.tails then pt.tails else pt.tails ++ [newTailTxHash] }
      ((fun i => if i = id then
          some { doc with pendingTransfers := assocSet doc.pendingTransfers originTailTxHash pt2 }
        else coll i), none)

/-- The collection states reachable through the MongoDB store operations,
starting from an empty collection. -/
inductive MongoReach : MongoColl → Prop where
  | empty : MongoReach (fun _ => none)
  | loadAccount (c : MongoColl) (id : String) :
      MongoReach c → MongoReach (mongoLoadAccount c id).1
  | removeAccount (c : MongoColl) (id : String) :
      MongoReach c → MongoReach (mongoRemoveAccount c id).1
  | writeIndex (c : MongoColl) (id : String) (index : Nat) :
      MongoReach c → MongoReach (mongoWriteIndex c id index)
  | addDepositRequest (c : MongoColl) (id : String) (index : Nat)
      (req : StoredDepositRequest) :
      MongoReach c → MongoReach (mongoAddDepositRequest c id index req)
  | removeDepositRequest (c : MongoColl) (id : String) (index : Nat) :
      MongoReach c → MongoReach (mongoRemoveDepositRequest c id index)
  | addPendingTransfer (c : MongoColl) (id : String) (originTail : String)
      (bundleTrytes : List String) (indices : List Nat) :
      MongoReach c → MongoReach (mongoAddPendingTransfer c id originTail bundleTrytes indices)
  | removePendingTransfer (c : MongoColl) (id : String) (originTail : String) :
      MongoReach c → MongoReach (mongoRemovePendingTransfer c id originTail)
  | addTailHash (c : MongoColl) (id : String) (originTail : String) (newTail : String) :
      MongoReach c → MongoReach (mongoAddTailHash c id originTail newTail).1

/-- Invariant: every stored pending transfer has a non-empty tails list
whose first element is the key it is stored under. -/
def tailsInvariant (coll : MongoColl) : Prop :=
  ∀ id doc, coll id = some doc →
    ∀ p ∈ doc.pendingTransfers, p.2.tails ≠ [] ∧ p.2.tails.head? = some p.1

/-- The collection holding exactly one freshly created empty account
document, as left behind by LoadAccount on an empty collection. -/
def oneEmptyAccountColl : MongoColl := (mongoLoadAccount (fun _ => none) "acc").1

/-! ### Claims about the magnet-link codec and the MongoDB store -/

/-- C1: the claimed round-trip parseMagnetLink (asMagnetLink c) = c fails.
Evaluating the code at a concrete valid Conditions value (90-tryte address,
timeout set, expected amount 1337) shows the parsed result carries an empty
address — ParseMagnetLink never assigns link.Host to the Address field —
and carries the pointer numeral in the amount field, because AsMagnetLink
formats the ExpectedAmount pointer itself under the d verb.  The parsed
value therefore differs from the original. -/
theorem parseMagnetLink_asMagnetLink_roundtrip_fails :
    parseMagnetLink ((asMagnetLink sampleConditions 824633720832).getD "") =
      Except.ok (sampleParsedConditions 824633720832)
    ∧ sampleParsedConditions 824633720832 ≠ sampleConditions :=
  ⟨rfl, by decide⟩

/-- C2: MongoStore.AddTailHash on an origin tail with no stored pending
transfer is a silent no-op: the UpdateOne filter matches no document, so
the collection is unchanged and the method returns no error at all — not
the PendingTransferNotFound error the store contract requires. -/
theorem mongoAddTailHash_missing_transfer_silent
    (coll : MongoColl) (id originTail newTail : String)
    (h : ∀ doc, coll id = some doc → assocGet doc.pendingTransfers originTail = none) :
    mongoAddTailHash coll id originTail newTail = (coll, none) := by
  unfold mongoAddTailHash
  cases hc : coll id with
  | none => simp
  | some doc => simp [h doc hc]

/-- Witness for C2: on the collection holding one empty account document,
AddTailHash for an absent origin tail leaves the collection unchanged and
reports no error. -/
theorem mongoAddTailHash_missing_transfer_silent_witness :
    mongoAddTailHash oneEmptyAccountColl "acc" "ORIGINTAIL" "NEWTAIL" =
      (oneEmptyAccountColl, none) :=
  mongoAddTailHash_missing_transfer_silent oneEmptyAccountColl "acc" "ORIGINTAIL" "NEWTAIL"
    (fun doc h => by
      have hc : oneEmptyAccountColl "acc" = some emptyAccountDoc := rfl
      rw [hc] at h
      rw [← Option.some.inj h]
      rfl)

/-- Membership in an assocSet result comes from the new binding or from the
original list. -/
theorem mem_assocSet [DecidableEq κ] {l : List (κ × α)} {k : κ} {v : α} {p : κ × α}
    (hp : p ∈ assocSet l k v) : p = (k, v) ∨ p ∈ l := by
  induction l with
  | nil => simpa [assocSet] using hp
  | cons hd tl ih =>
    obtain ⟨k0, v0⟩ := hd
    by_cases hk : k0 = k
    · simp [assocSet, hk] at hp
      rcases hp with hp | hp
      · left; simp [hp]
      · right; simp [hp]
    · simp [assocSet, hk] at hp
      rcases hp with hp | hp
      · right; simp [hp]
      · rcases ih hp with hp2 | hp2
        · left; exact hp2
        · right; simp [hp2]

/-- Membership survives assocUnset. -/
theorem mem_of_mem_assocUnset [DecidableEq κ] {l : List (κ × α)} {k : κ} {p : κ × α}
    (hp : p ∈ assocUnset l k) : p ∈ l :=
  (List.mem_filter.mp hp).1

/-- Membership survives a fold of assocUnset steps. -/
theorem mem_of_mem_foldl_assocUnset {inds : List Nat}
    {l : List (String × StoredDepositRequest)} {p : String × StoredDepositRequest}
    (hp : p ∈ inds.foldl (fun acc index => assocUnset acc (toString index)) l) : p ∈ l := by
  induction inds generalizing l with
  | nil => simpa using hp
  | cons i rest ih => exact mem_of_mem_assocUnset (ih hp)

/-- A successful assocGet exhibits a member. -/
theorem assocGet_some_mem [DecidableEq κ] {l : List (κ × α)} {k : κ} {v : α}
    (h : assocGet l k = some v) : (k, v) ∈ l := by
  induction l with
  | nil => simp [assocGet] at h
  | cons hd tl ih =>
    obtain ⟨k0, v0⟩ := hd
    by_cases hk : k0 = k
    · subst hk
      simp [assocGet] at h
      simp [h]
    · simp [assocGet, hk] at h
      simp [ih h]

/-- The tails invariant is preserved by any UpdateOne keyed on the account
id whose rewrite keeps the invariant on the rewritten document. -/
theorem tailsInvariant_updateDoc (c : MongoColl) (id : String) (f : AccountDoc → AccountDoc)
    (h : tailsInvariant c)
    (hf : ∀ doc, c id = some doc →
      ∀ p ∈ (f doc).pendingTransfers, p.2.tails ≠ [] ∧ p.2.tails.head? = some p.1) :
    tailsInvariant (updateDoc c id f) := by
  intro i doc hdoc
  unfold updateDoc at hdoc
  cases hc : c id with
  | none => rw [hc] at hdoc; exact h i doc hdoc
  | some d =>
    rw [hc] at hdoc
    simp only at hdoc
    by_cases hi : i = id
    · rw [if_pos hi] at hdoc
      exact (Option.some.inj hdoc) ▸ hf d hc
    · rw [if_neg hi] at hdoc
      exact h i doc hdoc

/-- C8: every collection state reachable through the MongoDB store
operations satisfies the tails invariant: each pending transfer record has
a non-empty tails list whose first element is the origin tail hash it is
keyed under.  AddPendingTransfer stores the origin tail as the only initial
tail; AddTailHash only ever appends at the end of an existing record. -/
theorem mongo_reachable_tails_invariant (c : MongoColl) (h : MongoReach c) :
    tailsInvariant c := by
  induction h with
  | empty => intro i doc hdoc; simp at hdoc
  | loadAccount c id _ ih =>
    intro i doc hdoc
    unfold mongoLoadAccount at hdoc
    cases hc : c id with
    | some d => rw [hc] at hdoc; exact ih i doc hdoc
    | none =>
      rw [hc] at hdoc
      simp only at hdoc
      by_cases hi : i = id
      · rw [if_pos hi] at hdoc
        intro p hp
        rw [← Option.some.inj hdoc] at hp
        simp [emptyAccountDoc] at hp
      · rw [if_neg hi] at hdoc; exact ih i doc hdoc
  | removeAccount c id _ ih =>
    intro i doc hdoc
    unfold mongoRemoveAccount at hdoc
    cases hc : c id with
    | none => rw [hc] at hdoc; exact ih i doc hdoc
    | some d =>
      rw [hc] at hdoc
      simp only at hdoc
      by_cases hi : i = id
      · rw [if_pos hi] at hdoc; simp at hdoc
      · rw [if_neg hi] at hdoc; exact ih i doc hdoc
  | writeIndex c id index _ ih =>
    exact tailsInvariant_updateDoc c id _ ih (fun doc hdoc p hp => ih id doc hdoc p hp)
  | addDepositRequest c id index req _ ih =>
    exact tailsInvariant_updateDoc c id _ ih (fun doc hdoc p hp => ih id doc hdoc p hp)
  | removeDepositRequest c id index _ ih =>
    exact tailsInvariant_updateDoc c id _ ih (fun doc hdoc p hp => ih id doc hdoc p hp)
  | addPendingTransfer c id originTail bundleTrytes indices _ ih =>
    refine tailsInvariant_updateDoc c id _ ih (fun doc hdoc p hp => ?_)
    simp only at hp
    rcases mem_assocSet hp with hp2 | hp2
    · subst hp2; simp [trytesToPendingTransfer]
    · exact ih id doc hdoc p hp2
  | removePendingTransfer c id originTail _ ih =>
    refine tailsInvariant_updateDoc c id _ ih (fun doc hdoc p hp => ?_)
    exact ih id doc hdoc p (mem_of_mem_assocUnset hp)
  | addTailHash c id originTail newTail _ ih =>
    intro i doc hdoc
    unfold mongoAddTailHash at hdoc
    cases hc : c id with
    | none => rw [hc] at hdoc; exact ih i doc hdoc
    | some d =>
      rw [hc] at hdoc
      simp only at hdoc
      cases hg : assocGet d.pendingTransfers originTail with
      | none => rw [hg] at hdoc; exact ih i doc hdoc
      | some pt =>
        rw [hg] at hdoc
        simp only at hdoc
        by_cases hi : i = id
        · rw [if_pos hi] at hdoc
          intro p hp
          rw [← Option.some.inj hdoc] at hp
          simp only at hp
          rcases mem_assocSet hp with hp2 | hp2
          · subst hp2
            have hbase := ih id d hc (originTail, pt) (assocGet_some_mem hg)
            by_cases hmem : newTail ∈ pt.tails
            · simpa [hmem] using hbase
            · simp only [hmem, if_neg, ite_false]
              constructor
              · simp
              · rw [List.head?_append]
                rcases hbase with ⟨hne, hhd⟩
                simp [hhd]
          · exact ih id d hc p hp2
        · rw [if_neg hi] at hdoc; exact ih i doc hdoc

/-- Witness for C8: a concrete reachable collection — load an account, then
add one pending transfer — satisfies the tails invariant. -/
theorem mongo_reachable_tails_invariant_witness :
    tailsInvariant (mongoAddPendingTransfer oneEmptyAccountColl "acc" "TAILA" ["TRYTES"] []) :=
  mongo_reachable_tails_invariant _
    (MongoReach.addPendingTransfer _ "acc" "TAILA" ["TRYTES"] []
      (MongoReach.loadAccount _ "acc" MongoReach.empty))

/-! ## account/plugins/promoter/promoter.go

One promoter tick iterates every pending transfer; the per-transfer work is
embedded as promoterTickTransfer below.  Node API calls, the clock and the
store call are oracle fields of PromoterEnv; every API error is a value of
the oracle (none / Except.error), matching the Go code's treatment. -/

/-- maxDepth from promoter.go. -/
def maxDepth : Nat := 15

/-- referenceTooOldMsg from promoter.go. -/
def referenceTooOldMsg : String := "reference transaction is too old"

/-- approxAboveMaxDepthMinutes from promoter.go. -/
def approxAboveMaxDepthMinutes : Nat := 5

/-- Outcome of the promote closure's tip-selection loop: GetTransactions-
ToApprove succeeded at some depth (the closure then goes on to prepare and
broadcast the promotion bundle), or the loop gave up with
ErrUnpromotableTail, or a non-too-old error was returned as-is. -/
inductive PromoteOutcome where
  | success (depth : Nat)
  | unpromotable
  | failed (msg : String)
  deriving DecidableEq, Repr

/-- The tip-selection retry loop of the promote closure (promoter.go lines
155-176): call GetTransactionsToApprove at the current depth; when the node
answers with exactly the reference-too-old message, increment the depth and
retry, giving up with ErrUnpromotableTail once the incremented depth
exceeds maxDepth; any other error is returned as-is.  gttaErr gives the
node's error for each depth (none means the call succeeds). -/
def promoteLoop (gttaErr : Nat → Option String) (depth : Nat) : PromoteOutcome :=
  match gttaErr depth with
  | none => PromoteOutcome.success depth
  | some msg =>
    if msg = referenceTooOldMsg then
      if depth + 1 > maxDepth then PromoteOutcome.unpromotable
      else promoteLoop gttaErr (depth + 1)
    else PromoteOutcome.failed msg
termination_by maxDepth + 1 - depth
decreasing_by simp [maxDepth] at *; omega

/-- Store errors as seen through the abstract store interface by the
promoter: the PendingTransferNotFound sentinel or an opaque backend
error. -/
inductive StoreCallErr where
  | pendingTransferNotFound
  | backend (msg : String)
  deriving DecidableEq, Repr

/-- The error kinds the promoter wraps into Error events. -/
inductive PromoErrKind where
  | unableToPromote (msg : String)
  | unableToReattach (msg : String)
  | storeTailErr (msg : String)
  deriving DecidableEq, Repr

/-- The observable actions of one per-transfer promoter step: the API and
store calls it performs and the events it emits, in order. -/
inductive PromoterAction where
  | promoteCall (tail : String)
  | reattachCall
  | addTailHashCall (origin newTail : String)
  | emitError (e : PromoErrKind)
  | emitPromotion (origin bundleHash promoTail : String)
  | emitReattachment (origin bundleHash reattachTail : String)
  deriving DecidableEq, Repr

/-- Oracles for one per-transfer promoter step.  checkConsistency and
txTimestamp return none to model a failed API call (the loop then skips the
tail); txTimestamp combines GetTrytes and AsTransactionObject and yields
the transaction timestamp in unix seconds.  bundleHashOf models
store.PendingTransferToBundle, yielding the bundle hash used in events
(none models a reconstruction error).  promoteRes and reattachRes are the
results of the promote and reattach closures; addTailHashRes is the store's
answer to AddTailHash. -/
structure PromoterEnv where
  checkConsistency : String → Option Bool
  txTimestamp : String → Option Int
  now : Option Int
  bundleHashOf : List String → Option String
  promoteRes : String → Except String String
  reattachRes : Except String String
  addTailHashRes : Option StoreCallErr

/-- A tail passes the selection loop's checks (promoter.go lines 210-237):
CheckConsistency succeeds and reports consistent, the transaction trytes
load and parse, and aboveMaxDepth holds — the clock reads successfully and
now minus the transaction timestamp is below approxAboveMaxDepthMinutes
(in seconds: below 300). -/
def promotableTail (env : PromoterEnv) (tailTx : String) : Bool :=
  match env.checkConsistency tailTx with
  | none => false
  | some false => false
  | some true =>
    match env.txTimestamp tailTx with
    | none => false
    | some ts =>
      match env.now with
      | none => false
      | some now => decide (now - ts < 60 * (approxAboveMaxDepthMinutes : Int))

/-- The Go selection loop walks the tails array by index, from the last
index down to index zero, returning the first hit:
for i := len(tails)-1; i >= 0; i-- { ... }.  This function checks indices
i, i-1, ..., 0 of the list. -/
def selectDownFrom (p : String → Bool) (tails : List String) : Nat → Option String
  | 0 =>
    match tails[0]? with
    | some t => if p t then some t else none
    | none => none
  | i + 1 =>
    match tails[i + 1]? with
    | some t => if p t then some t else selectDownFrom p tails i
    | none => selectDownFrom p tails i

/-- The tailToPromote computation: run the downward walk starting at the
last index; with no tails the loop body never runs. -/
def selectTailToPromote (p : String → Bool) (tails : List String) : Option String :=
  match tails with
  | [] => none
  | _ :: _ => selectDownFrom p tails (tails.length - 1)

/-- The downward walk over indices i, ..., 0 finds exactly what a forward
find over the reversed prefix of length i+1 finds. -/
theorem selectDownFrom_eq_find_reverse_take (p : String → Bool) (tails : List String) :
    ∀ i, selectDownFrom p tails i = ((tails.take (i + 1)).reverse).find? p := by
  intro i
  induction i with
  | zero =>
    cases tails with
    | nil => simp [selectDownFrom]
    | cons a rest => simp [selectDownFrom, List.take_succ]
  | succ i ih =>
    rw [selectDownFrom]
    cases ht : tails[i + 1]? with
    | none =>
      rw [List.take_succ, ht]
      simpa using ih
    | some t =>
      rw [List.take_succ, ht]
      simp only [Option.toList_some, List.reverse_append, List.reverse_cons,
        List.reverse_nil, List.nil_append, List.singleton_append, List.find?_cons]
      cases hp : p t with
      | true => simp
      | false => simpa using ih

/-- The tail selected for promotion is the first promotable tail of the
reversed tails list: the walk goes from the newest tail to the oldest. -/
theorem selectTailToPromote_eq_find_reverse (p : String → Bool) (tails : List String) :
    selectTailToPromote p tails = tails.reverse.find? p := by
  cases tails with
  | nil => simp [selectTailToPromote]
  | cons a rest =>
    rw [selectTailToPromote, selectDownFrom_eq_find_reverse_take]
    have hlen : (a :: rest).length - 1 + 1 = (a :: rest).length := by simp
    rw [hlen, List.take_length]

/-- One per-transfer step of the promoter tick (promoter.go lines 206-283):
select a tail to promote walking the tails from newest to oldest; rebuild
the bundle; when a tail was selected, promote it; otherwise reattach, store
the new tail hash through storeTailTxHash (a PendingTransferNotFound answer
is treated like success) and promote the reattached tail. -/
def promoterTickTransfer (env : PromoterEnv) (key : String) (pt : PendingTransfer) :
    List PromoterAction :=
  let tailToPromote := selectTailToPromote (promotableTail env) pt.tails
  match env.bundleHashOf pt.bundle with
  | none => []
  | some bundleHash =>
    match tailToPromote with
    | some tail =>
      match env.promoteRes tail with
      | Except.error msg =>
        [PromoterAction.promoteCall tail, PromoterAction.emitError (PromoErrKind.unableToPromote msg)]
      | Except.ok promoTail =>
        [PromoterAction.promoteCall tail, PromoterAction.emitPromotion key bundleHash promoTail]
    | none =>
      match env.reattachRes with
      | Except.error msg =>
        [PromoterAction.reattachCall, PromoterAction.emitError (PromoErrKind.unableToReattach msg)]
      | Except.ok newTail =>
        [PromoterAction.reattachCall, PromoterAction.emitReattachment key bundleHash newTail,
         PromoterAction.addTailHashCall key newTail] ++
        match env.addTailHashRes with
        | some (StoreCallErr.backend m) =>
          [PromoterAction.emitError (PromoErrKind.storeTailErr m)]
        | _ =>
          match env.promoteRes newTail with
          | Except.error msg =>
            [PromoterAction.promoteCall newTail,
             PromoterAction.emitError (PromoErrKind.unableToPromote msg)]
          | Except.ok promoTail =>
            [PromoterAction.promoteCall newTail,
             PromoterAction.emitPromotion key bundleHash promoTail]

/-- When every depth from d up to maxDepth answers with the
reference-too-old message, the retry loop started at d ≤ maxDepth ends in
ErrUnpromotableTail. -/
theorem promoteLoop_unpromotable_of_all_tooOld (g : Nat → Option String) :
    ∀ n d, 15 - d ≤ n → d ≤ 15 →
      (∀ j, d ≤ j → j ≤ 15 → g j = some referenceTooOldMsg) →
      promoteLoop g d = PromoteOutcome.unpromotable := by
  intro n
  induction n with
  | zero =>
    intro d hn hd hall
    have hd15 : d = 15 := by omega
    subst hd15
    rw [promoteLoop, hall 15 le_rfl le_rfl]
    simp [maxDepth]
  | succ m ih =>
    intro d hn hd hall
    rw [promoteLoop, hall d le_rfl hd]
    simp only [if_pos rfl]
    by_cases h15 : d = 15
    · subst h15; simp [maxDepth]
    · have hlt : ¬ d + 1 > maxDepth := by simp [maxDepth]; omega
      rw [if_neg hlt]
      exact ih (d + 1) (by omega) (by omega) (fun j hj1 hj2 => hall j (by omega) hj2)

/-- When every depth from d up to k-1 answers with the reference-too-old
message, the retry loop started at d reaches depth k unchanged. -/
theorem promoteLoop_skip_tooOld (g : Nat → Option String) :
    ∀ n d k, k - d ≤ n → d ≤ k → k ≤ 15 →
      (∀ j, d ≤ j → j < k → g j = some referenceTooOldMsg) →
      promoteLoop g d = promoteLoop g k := by
  intro n
  induction n with
  | zero =>
    intro d k hn hd hk _
    have : d = k := by omega
    rw [this]
  | succ m ih =>
    intro d k hn hd hk hall
    by_cases hdk : d = k
    · rw [hdk]
    · have hdlt : d < k := by omega
      rw [promoteLoop, hall d le_rfl hdlt]
      simp only [if_pos rfl]
      have hlt : ¬ d + 1 > maxDepth := by simp [maxDepth]; omega
      rw [if_neg hlt]
      exact ih (d + 1) k (by omega) (by omega) hk (fun j hj1 hj2 => hall j (by omega) hj2)

/-- C6: starting from the configured depth 3, the promote closure retries
tip selection with incremented depth on each exact reference-too-old
answer; if every depth 3..15 answers that way it fails with
ErrUnpromotableTail (the failure happens when the incremented depth reaches
16, so no depth beyond 15 is attempted); if some depth k ≤ 15 is the first
to answer differently, the loop succeeds at k when the call succeeds there,
and returns any other error from depth k as-is. -/
theorem promote_depth_retry_behavior (g : Nat → Option String) :
    ((∀ d, 3 ≤ d → d ≤ 15 → g d = some referenceTooOldMsg) →
      promoteLoop g 3 = PromoteOutcome.unpromotable)
    ∧ (∀ k, 3 ≤ k → k ≤ 15 →
        (∀ d, 3 ≤ d → d < k → g d = some referenceTooOldMsg) →
        g k = none → promoteLoop g 3 = PromoteOutcome.success k)
    ∧ (∀ k msg, 3 ≤ k → k ≤ 15 →
        (∀ d, 3 ≤ d → d < k → g d = some referenceTooOldMsg) →
        g k = some msg → msg ≠ referenceTooOldMsg →
        promoteLoop g 3 = PromoteOutcome.failed msg) := by
  refine ⟨?_, ?_, ?_⟩
  · intro hall
    exact promoteLoop_unpromotable_of_all_tooOld g 15 3 (by omega) (by omega)
      (fun j h1 h2 => hall j h1 h2)
  · intro k h3 h15 hbefore hk
    rw [promoteLoop_skip_tooOld g 15 3 k (by omega) h3 h15
      (fun j hj1 hj2 => hbefore j hj1 hj2)]
    rw [promoteLoop, hk]
  · intro k msg h3 h15 hbefore hk hne
    rw [promoteLoop_skip_tooOld g 15 3 k (by omega) h3 h15
      (fun j hj1 hj2 => hbefore j hj1 hj2)]
    rw [promoteLoop, hk]
    simp [hne]

/-- A node oracle answering reference-too-old at every depth up to 15. -/
def alwaysTooOldGtta : Nat → Option String :=
  fun d => if d ≤ 15 then some referenceTooOldMsg else none

/-- Witness for C6: against the always-too-old node, the loop started at
depth 3 ends in ErrUnpromotableTail. -/
theorem promote_depth_retry_behavior_witness :
    promoteLoop alwaysTooOldGtta 3 = PromoteOutcome.unpromotable :=
  (promote_depth_retry_behavior alwaysTooOldGtta).1
    (fun d _ h2 => by simp [alwaysTooOldGtta, h2])

/-- C7: the per-transfer promoter step walks the tails from newest (last
element) to oldest (first element) and selects the first tail that passes
checkConsistency and whose transaction timestamp is within
approxAboveMaxDepthMinutes = 5 minutes of the clock's current time; when
such a tail exists the step promotes it and performs no AddTailHash call
(nothing is appended to the tails list). -/
theorem promoter_walks_newest_to_oldest_and_promotes
    (env : PromoterEnv) (key : String) (pt : PendingTransfer) (t bundleHash : String)
    (hsel : selectTailToPromote (promotableTail env) pt.tails = some t)
    (hbndl : env.bundleHashOf pt.bundle = some bundleHash) :
    selectTailToPromote (promotableTail env) pt.tails =
      pt.tails.reverse.find? (promotableTail env)
    ∧ (∀ s, promotableTail env s = true ↔
        (env.checkConsistency s = some true ∧
         ∃ ts now, env.txTimestamp s = some ts ∧ env.now = some now ∧
           now - ts < 60 * (approxAboveMaxDepthMinutes : Int)))
    ∧ PromoterAction.promoteCall t ∈ promoterTickTransfer env key pt
    ∧ (∀ o n, PromoterAction.addTailHashCall o n ∉ promoterTickTransfer env key pt) := by
  refine ⟨selectTailToPromote_eq_find_reverse _ _, ?_, ?_, ?_⟩
  · intro s
    unfold promotableTail
    cases hc : env.checkConsistency s with
    | none => simp
    | some b =>
      cases b with
      | false => simp
      | true =>
        cases ht : env.txTimestamp s with
        | none => simp
        | some ts =>
          cases hn : env.now with
          | none => simp
          | some now => simp
  · simp only [promoterTickTransfer, hbndl, hsel]
    cases env.promoteRes t with
    | error msg => simp
    | ok promoTail => simp
  · intro o n
    simp only [promoterTickTransfer, hbndl, hsel]
    cases env.promoteRes t with
    | error msg => simp
    | ok promoTail => simp

/-- A concrete race environment: the sole stored tail is inconsistent, the
reattachment succeeds, the store answers AddTailHash with
PendingTransferNotFound (the poller removed the transfer concurrently), and
the subsequent promotion succeeds. -/
def raceEnv : PromoterEnv :=
  { checkConsistency := fun _ => some false,
    txTimestamp := fun _ => some 0,
    now := some 0,
    bundleHashOf := fun _ => some "BUNDLEHASH",
    promoteRes := fun _ => Except.ok "PROMOTIONTAIL",
    reattachRes := Except.ok "REATTACHTAIL",
    addTailHashRes := some StoreCallErr.pendingTransferNotFound }

/-- The pending transfer processed in the race scenario. -/
def racePt : PendingTransfer := { bundle := ["TRYTES"], tails := ["ORIGTAIL"] }

/-- C7 witness: in a one-tail environment where the tail is promotable, the
step promotes it and performs no AddTailHash call. -/
def promotableEnv : PromoterEnv :=
  { raceEnv with checkConsistency := fun _ => some true }

/-- Witness for C7: with a consistent two-minute-old tail, the step
promotes that tail and never calls AddTailHash. -/
theorem promoter_walks_newest_to_oldest_and_promotes_witness :
    PromoterAction.promoteCall "ORIGTAIL" ∈ promoterTickTransfer promotableEnv "ORIGTAIL" racePt
    ∧ ∀ o n, PromoterAction.addTailHashCall o n ∉
        promoterTickTransfer promotableEnv "ORIGTAIL" racePt :=
  ⟨(promoter_walks_newest_to_oldest_and_promotes promotableEnv "ORIGTAIL" racePt
      "ORIGTAIL" "BUNDLEHASH" rfl rfl).2.2.1,
   (promoter_walks_newest_to_oldest_and_promotes promotableEnv "ORIGTAIL" racePt
      "ORIGTAIL" "BUNDLEHASH" rfl rfl).2.2.2⟩

/-- C3 counterexample: in the confirmation race the promoter does NOT stop
after AddTailHash answers PendingTransferNotFound — the full step trace
shows it still promotes the reattached tail and still emits a Promotion
event in the same tick, contradicting the claim that no further promotion
is performed and no further events are emitted. -/
theorem promoter_race_still_promotes_after_notFound :
    promoterTickTransfer raceEnv "ORIGTAIL" racePt =
      [PromoterAction.reattachCall,
       PromoterAction.emitReattachment "ORIGTAIL" "BUNDLEHASH" "REATTACHTAIL",
       PromoterAction.addTailHashCall "ORIGTAIL" "REATTACHTAIL",
       PromoterAction.promoteCall "REATTACHTAIL",
       PromoterAction.emitPromotion "ORIGTAIL" "BUNDLEHASH" "PROMOTIONTAIL"]
    ∧ PromoterAction.emitPromotion "ORIGTAIL" "BUNDLEHASH" "PROMOTIONTAIL" ∈
        promoterTickTransfer raceEnv "ORIGTAIL" racePt :=
  ⟨rfl, by decide⟩

/-- C3 (amended): when AddTailHash answers PendingTransferNotFound after a
successful reattachment, the promoter treats the store call as successful —
it emits no error event for it — and then proceeds to promote the
reattached tail in the same tick, emitting a Promotion event when that
promotion succeeds. -/
theorem promoter_notFound_treated_success_then_promotes
    (env : PromoterEnv) (key : String) (pt : PendingTransfer) (bundleHash newTail : String)
    (hsel : selectTailToPromote (promotableTail env) pt.tails = none)
    (hbndl : env.bundleHashOf pt.bundle = some bundleHash)
    (hreatt : env.reattachRes = Except.ok newTail)
    (hstore : env.addTailHashRes = some StoreCallErr.pendingTransferNotFound) :
    promoterTickTransfer env key pt =
      [PromoterAction.reattachCall, PromoterAction.emitReattachment key bundleHash newTail,
       PromoterAction.addTailHashCall key newTail] ++
      (match env.promoteRes newTail with
       | Except.error msg =>
         [PromoterAction.promoteCall newTail,
          PromoterAction.emitError (PromoErrKind.unableToPromote msg)]
       | Except.ok promoTail =>
         [PromoterAction.promoteCall newTail,
          PromoterAction.emitPromotion key bundleHash promoTail])
    ∧ (∀ m, PromoterAction.emitError (PromoErrKind.storeTailErr m) ∉
        promoterTickTransfer env key pt)
    ∧ PromoterAction.promoteCall newTail ∈ promoterTickTransfer env key pt := by
  refine ⟨?_, ?_, ?_⟩
  · simp only [promoterTickTransfer, hbndl, hsel, hreatt, hstore]
  · intro m
    simp only [promoterTickTransfer, hbndl, hsel, hreatt, hstore]
    cases env.promoteRes newTail with
    | error msg => simp
    | ok promoTail => simp
  · simp only [promoterTickTransfer, hbndl, hsel, hreatt, hstore]
    cases env.promoteRes newTail with
    | error msg => simp
    | ok promoTail => simp

/-- Witness for the amended C3: in the concrete race environment the step
emits no store error event and promotes the reattached tail. -/
theorem promoter_notFound_treated_success_then_promotes_witness :
    (∀ m, PromoterAction.emitError (PromoErrKind.storeTailErr m) ∉
        promoterTickTransfer raceEnv "ORIGTAIL" racePt)
    ∧ PromoterAction.promoteCall "REATTACHTAIL" ∈
        promoterTickTransfer raceEnv "ORIGTAIL" racePt :=
  ⟨(promoter_notFound_treated_success_then_promotes raceEnv "ORIGTAIL" racePt
      "BUNDLEHASH" "REATTACHTAIL" rfl rfl rfl rfl).2.1,
   (promoter_notFound_treated_success_then_promotes raceEnv "ORIGTAIL" racePt
      "BUNDLEHASH" "REATTACHTAIL" rfl rfl rfl rfl).2.2⟩

/-! ## account/account.go — defaultInputSelection

The default input selection strategy (account.go lines 455-641).  Store and
node calls are oracle fields of ISEnv.  The node's GetBalances call is
modelled by a success flag plus a per-address balance function (the node
answers one balance per queried address), which also embeds the positional
indexing balances.Balances[i] of the Go code. -/

/-- api.Input. -/
structure ISInput where
  address : String
  keyIndex : Nat
  balance : Nat
  security : Nat
  deriving DecidableEq, Repr

/-- Oracles for defaultInputSelection: the stored deposit requests in
iteration order, the milestone fetch, the clock (unix seconds), the seed
fetch, address generation (key index and security level; the Go code
discards the error of GenerateAddress here), the batched balance query and
hasIncomingConsistentValueTransfer. -/
structure ISEnv where
  depositRequests : Except String (List (Nat × StoredDepositRequest))
  milestone : Except String String
  now : Except String Int
  seed : Except String String
  genAddr : Nat → Nat → String
  getBalances : Except String Unit
  balanceOf : String → Nat
  hasIncoming : String → Except String Bool

/-- One partitioned entry: key index, stored request, derived (checksummed)
address. -/
structure ISSel where
  keyIndex : Nat
  req : StoredDepositRequest
  addr : String
  deriving DecidableEq, Repr

/-- The partition loop of defaultInputSelection (lines 515-552): remainder
requests (nil TimeoutAt) go primary, but panic when their ExpectedAmount is
also nil; timed-out requests go secondary; multi-use requests without an
expected amount are skipped; everything else goes primary.  none models the
panic. -/
def partitionRequests (env : ISEnv) (nowT : Int) :
    List (Nat × StoredDepositRequest) → Option (List ISSel × List ISSel)
  | [] => some ([], [])
  | (k, r) :: rest =>
    match r.request.timeoutAt with
    | none =>
      match r.request.expectedAmount with
      | none => none
      | some _ =>
        (partitionRequests env nowT rest).map
          (fun pr => (⟨k, r, env.genAddr k r.securityLevel⟩ :: pr.1, pr.2))
    | some tAt =>
      if nowT > tAt then
        (partitionRequests env nowT rest).map
          (fun pr => (pr.1, ⟨k, r, env.genAddr k r.securityLevel⟩ :: pr.2))
      else if r.request.multiUse then
        match r.request.expectedAmount with
        | none => partitionRequests env nowT rest
        | some _ =>
          (partitionRequests env nowT rest).map
            (fun pr => (⟨k, r, env.genAddr k r.securityLevel⟩ :: pr.1, pr.2))
      else
        (partitionRequests env nowT rest).map
          (fun pr => (⟨k, r, env.genAddr k r.securityLevel⟩ :: pr.1, pr.2))

/-- The walk over the primary selection (lines 571-595): skip entries whose
expected amount is not reached, accumulate the balance into the uint64 sum,
add non-zero balances as inputs and mark them for removal (both suppressed
in balance-check mode), and break once the sum covers the transfer value
outside balance-check mode. -/
def primaryWalk (env : ISEnv) (balanceCheck : Bool) (transferValue : Nat) :
    List ISSel → Nat → List ISInput → List Nat → Nat × List ISInput × List Nat
  | [], sum, ins, rem => (sum, ins, rem)
  | s :: rest, sum, ins, rem =>
    let bal := env.balanceOf s.addr
    let belowExpected : Bool :=
      match s.req.request.expectedAmount with
      | some ea => decide (bal < ea)
      | none => false
    if belowExpected then
      primaryWalk env balanceCheck transferValue rest sum ins rem
    else
      let sum2 := (sum + bal) % 2 ^ 64
      if bal = 0 then
        primaryWalk env balanceCheck transferValue rest sum2 ins rem
      else
        let ins2 := if balanceCheck then ins
          else ins ++ [⟨s.addr, s.keyIndex, bal, s.req.securityLevel⟩]
        let rem2 := if balanceCheck then rem else rem ++ [s.keyIndex]
        if transferValue ≤ sum2 ∧ ¬balanceCheck then (sum2, ins2, rem2)
        else primaryWalk env balanceCheck transferValue rest sum2 ins2 rem2

/-- The walk over the secondary (timed-out) selection (lines 602-630): a
zero-balance entry is removed only when hasIncomingConsistentValueTransfer
reports neither a transfer nor an error; a funded entry is marked for
removal, accumulated and added as input, with the same break condition. -/
def secondaryWalk (env : ISEnv) (balanceCheck : Bool) (transferValue : Nat) :
    List ISSel → Nat → List ISInput → List Nat → Nat × List ISInput × List Nat
  | [], sum, ins, rem => (sum, ins, rem)
  | s :: rest, sum, ins, rem =>
    let bal := env.balanceOf s.addr
    if bal = 0 then
      match env.hasIncoming s.addr with
      | Except.ok true => secondaryWalk env balanceCheck transferValue rest sum ins rem
      | Except.error _ => secondaryWalk env balanceCheck transferValue rest sum ins rem
      | Except.ok false =>
        let rem2 := if balanceCheck then rem else rem ++ [s.keyIndex]
        secondaryWalk env balanceCheck transferValue rest sum ins rem2
    else
      let rem2 := if balanceCheck then rem else rem ++ [s.keyIndex]
      let sum2 := (sum + bal) % 2 ^ 64
      let ins2 := if balanceCheck then ins
        else ins ++ [⟨s.addr, s.keyIndex, bal, s.req.securityLevel⟩]
      if transferValue ≤ sum2 ∧ ¬balanceCheck then (sum2, ins2, rem2)
      else secondaryWalk env balanceCheck transferValue rest sum2 ins2 rem2

/-- Outcome of defaultInputSelection: either the Go function panics (the
malformed-remainder panic of line 519) or it returns the quadruple
(sum, inputs, indices to remove, error). -/
inductive ISOutcome where
  | panicked
  | returns (sum : Nat) (inputs : List ISInput) (toRemove : List Nat) (err : Option String)
  deriving DecidableEq, Repr

/-- consts.ErrInsufficientBalance. -/
def insufficientBalanceErr : String := "insufficient balance"

/-- defaultInputSelection from account.go: load the deposit requests (empty
means zero balance or insufficient balance), pin the milestone, read the
clock and the seed, partition the requests (possibly panicking), query all
balances in one batch, walk the primary selection, fall through to the
secondary selection while the transfer is unfulfilled or in balance-check
mode, and return — in balance-check mode always with empty inputs and empty
removal list. -/
def defaultInputSelection (env : ISEnv) (transferValue : Nat) (balanceCheck : Bool) :
    ISOutcome :=
  match env.depositRequests with
  | Except.error e => ISOutcome.returns 0 [] [] (some e)
  | Except.ok reqs =>
    if reqs = [] then
      if balanceCheck then ISOutcome.returns 0 [] [] none
      else ISOutcome.returns 0 [] [] (some insufficientBalanceErr)
    else
      match env.milestone with
      | Except.error e => ISOutcome.returns 0 [] [] (some e)
      | Except.ok _ =>
        match env.now with
        | Except.error e => ISOutcome.returns 0 [] [] (some e)
        | Except.ok nowT =>
          match env.seed with
          | Except.error e => ISOutcome.returns 0 [] [] (some e)
          | Except.ok _ =>
            match partitionRequests env nowT reqs with
            | none => ISOutcome.panicked
            | some (prim, sec) =>
              match env.getBalances with
              | Except.error e => ISOutcome.returns 0 [] [] (some e)
              | Except.ok _ =>
                let r1 := primaryWalk env balanceCheck transferValue prim 0 [] []
                let r2 :=
                  if r1.1 < transferValue ∨ balanceCheck then
                    secondaryWalk env balanceCheck transferValue sec r1.1 r1.2.1 r1.2.2
                  else r1
                if balanceCheck then ISOutcome.returns r2.1 [] [] none
                else if r2.1 < transferValue then
                  ISOutcome.returns 0 [] [] (some insufficientBalanceErr)
                else ISOutcome.returns r2.1 r2.2.1 r2.2.2 none

/-- C4: in balance-check mode every return of defaultInputSelection carries
empty inputs and an empty removal list, whatever the store holds and
whatever the balances are; and with no deposit requests at all the function
returns (0, empty, empty, no error) in balance-check mode and the
InsufficientBalance error otherwise. -/
theorem input_selection_balance_check_shape (env : ISEnv) (transferValue : Nat) :
    (∀ sum ins rem err,
      defaultInputSelection env transferValue true = ISOutcome.returns sum ins rem err →
      ins = [] ∧ rem = [])
    ∧ (env.depositRequests = Except.ok [] →
        defaultInputSelection env transferValue true = ISOutcome.returns 0 [] [] none
        ∧ defaultInputSelection env transferValue false =
            ISOutcome.returns 0 [] [] (some insufficientBalanceErr)) := by
  constructor
  · intro sum ins rem err h
    unfold defaultInputSelection at h
    repeat' split at h
    all_goals try exact absurd rfl (by assumption)
    all_goals try exact ISOutcome.noConfusion h
    all_goals injection h with h1 h2 h3 h4
    all_goals exact ⟨h2.symm, h3.symm⟩
  · intro hreqs
    constructor
    · unfold defaultInputSelection
      rw [hreqs]
      rfl
    · unfold defaultInputSelection
      rw [hreqs]
      rfl

/-- An environment whose store holds no deposit requests. -/
def emptyISEnv : ISEnv :=
  { depositRequests := Except.ok [],
    milestone := Except.ok "MILESTONE",
    now := Except.ok 0,
    seed := Except.ok "SEED",
    genAddr := fun _ _ => "ADDR",
    getBalances := Except.ok (),
    balanceOf := fun _ => 0,
    hasIncoming := fun _ => Except.ok false }

/-- Witness for C4: against the empty store, balance-check mode returns
(0, empty, empty, no error) and transfer mode returns the
InsufficientBalance error. -/
theorem input_selection_balance_check_shape_witness :
    defaultInputSelection emptyISEnv 5 true = ISOutcome.returns 0 [] [] none
    ∧ defaultInputSelection emptyISEnv 5 false =
        ISOutcome.returns 0 [] [] (some insufficientBalanceErr) :=
  (input_selection_balance_check_shape emptyISEnv 5).2 rfl

/-- A request list containing a malformed remainder entry makes the
partition loop panic. -/
theorem partitionRequests_panics_of_malformed (env : ISEnv) (nowT : Int)
    (reqs : List (Nat × StoredDepositRequest))
    (hbad : ∃ p ∈ reqs, p.2.request.timeoutAt = none ∧ p.2.request.expectedAmount = none) :
    partitionRequests env nowT reqs = none := by
  induction reqs with
  | nil => simp at hbad
  | cons hd rest ih =>
    obtain ⟨p, hp, ht, ha⟩ := hbad
    rcases List.mem_cons.mp hp with hp | hp
    · subst hp
      obtain ⟨k, r⟩ := p
      simp only at ht ha
      simp [partitionRequests, ht, ha]
    · have hrest : partitionRequests env nowT rest = none := ih ⟨p, hp, ht, ha⟩
      obtain ⟨k, r⟩ := hd
      cases hto : r.request.timeoutAt with
      | none =>
        cases hea : r.request.expectedAmount with
        | none => simp [partitionRequests, hto, hea]
        | some a => simp [partitionRequests, hto, hea, hrest]
      | some tAt =>
        by_cases hlate : nowT > tAt
        · simp [partitionRequests, hto, hlate, hrest]
        · by_cases hmu : r.request.multiUse
          · cases hea : r.request.expectedAmount with
            | none => simp [partitionRequests, hto, hlate, hmu, hea, hrest]
            | some a => simp [partitionRequests, hto, hlate, hmu, hea, hrest]
          · simp [partitionRequests, hto, hlate, hmu, hrest]

/-- A request list without malformed remainder entries never makes the
partition loop panic. -/
theorem partitionRequests_ok_of_wellformed (env : ISEnv) (nowT : Int)
    (reqs : List (Nat × StoredDepositRequest))
    (hok : ∀ p ∈ reqs, p.2.request.timeoutAt = none → p.2.request.expectedAmount ≠ none) :
    partitionRequests env nowT reqs ≠ none := by
  induction reqs with
  | nil => simp [partitionRequests]
  | cons hd rest ih =>
    have hrest : partitionRequests env nowT rest ≠ none :=
      ih (fun p hp => hok p (List.mem_cons_of_mem hd hp))
    obtain ⟨k, r⟩ := hd
    rcases hp : partitionRequests env nowT rest with _ | pr
    · exact absurd hp hrest
    · cases hto : r.request.timeoutAt with
      | none =>
        cases hea : r.request.expectedAmount with
        | none =>
          exact absurd hea (hok (k, r) (List.mem_cons_self _ _) hto)
        | some a => simp [partitionRequests, hto, hea, hp]
      | some tAt =>
        by_cases hlate : nowT > tAt
        · simp [partitionRequests, hto, hlate, hp]
        · by_cases hmu : r.request.multiUse
          · cases hea : r.request.expectedAmount with
            | none => simp [partitionRequests, hto, hlate, hmu, hea, hp]
            | some a => simp [partitionRequests, hto, hlate, hmu, hea, hp]
          · simp [partitionRequests, hto, hlate, hmu, hp]

/-- C10: when the store holds a deposit request with nil TimeoutAt and nil
ExpectedAmount (a malformed remainder entry) and the milestone, clock and
seed reads succeed, defaultInputSelection panics instead of returning; and
conversely, when every nil-TimeoutAt request carries an ExpectedAmount, the
function never panics — the no-panic guarantee has exactly that
precondition. -/
theorem input_selection_panics_on_malformed_remainder
    (env : ISEnv) (transferValue : Nat) (balanceCheck : Bool) :
    (∀ reqs ms nowT sd,
      env.depositRequests = Except.ok reqs →
      env.milestone = Except.ok ms →
      env.now = Except.ok nowT →
      env.seed = Except.ok sd →
      (∃ p ∈ reqs, p.2.request.timeoutAt = none ∧ p.2.request.expectedAmount = none) →
      defaultInputSelection env transferValue balanceCheck = ISOutcome.panicked)
    ∧ (∀ reqs,
        env.depositRequests = Except.ok reqs →
        (∀ p ∈ reqs, p.2.request.timeoutAt = none → p.2.request.expectedAmount ≠ none) →
        defaultInputSelection env transferValue balanceCheck ≠ ISOutcome.panicked) := by
  constructor
  · intro reqs ms nowT sd hreqs hms hnow hsd hbad
    have hne : reqs ≠ [] := by
      obtain ⟨p, hp, _, _⟩ := hbad
      intro hnil
      rw [hnil] at hp
      simp at hp
    unfold defaultInputSelection
    rw [hreqs, hms, hnow, hsd]
    simp [hne, partitionRequests_panics_of_malformed env nowT reqs hbad]
  · intro reqs hreqs hok
    unfold defaultInputSelection
    rw [hreqs]
    by_cases hne : reqs = []
    · by_cases hbc : balanceCheck <;> simp [hne, hbc]
    · cases hms : env.milestone with
      | error e => simp [hne]
      | ok ms =>
        cases hnow : env.now with
        | error e => simp [hne]
        | ok nowT =>
          cases hsd : env.seed with
          | error e => simp [hne]
          | ok sd =>
            rcases hp : partitionRequests env nowT reqs with _ | pr
            · exact absurd hp (partitionRequests_ok_of_wellformed env nowT reqs hok)
            · obtain ⟨prim, sec⟩ := pr
              cases hgb : env.getBalances with
              | error e => simp [hne, hp]
              | ok u =>
                by_cases hbc : balanceCheck
                · simp [hne, hp, hbc]
                · simp only [hne, hp, hbc]
                  repeat' split
                  all_goals simp

/-- An environment whose store holds one malformed remainder entry: nil
timeout and nil expected amount. -/
def malformedISEnv : ISEnv :=
  { emptyISEnv with
    depositRequests := Except.ok
      [(1, { securityLevel := 2,
             request := { timeoutAt := none, multiUse := false, expectedAmount := none } })] }

/-- Witness for C10: input selection over the malformed store panics. -/
theorem input_selection_panics_on_malformed_remainder_witness :
    defaultInputSelection malformedISEnv 5 false = ISOutcome.panicked :=
  (input_selection_panics_on_malformed_remainder malformedISEnv 5 false).1
    _ "MILESTONE" 0 "SEED" rfl rfl rfl rfl
    ⟨_, List.mem_cons_self _ _, rfl, rfl⟩

/-! ## account/account.go — the send pipeline

account.send (lines 283-405) with its deferred remainder cleanup (lines
302-337) and the allocateDepositRequest helper (lines 260-281).  The store
is modelled as explicit account state with the §4.1 in-memory reference
semantics, its operations taken to succeed (the claims under analysis
concern API failures, not store failures); the account's in-memory
lastKeyIndex counter coincides with the stored key index on every path
that matters here, so both are the keyIndex field.  All node API calls and
the other collaborators are oracle fields of SendEnv. -/

/-- The abstract per-account store state. -/
structure AccountState where
  keyIndex : Nat
  depositRequests : List (Nat × StoredDepositRequest)
  pendingTransfers : List (String × PendingTransfer)
  deriving DecidableEq, Repr

/-- Store.WriteIndex. -/
def stWriteIndex (st : AccountState) (index : Nat) : AccountState :=
  { st with keyIndex := index }

/-- Store.AddDepositRequest. -/
def stAddDepositRequest (st : AccountState) (index : Nat)
    (req : StoredDepositRequest) : AccountState :=
  { st with depositRequests := assocSet st.depositRequests index req }

/-- Store.RemoveDepositRequest. -/
def stRemoveDepositRequest (st : AccountState) (index : Nat) : AccountState :=
  { st with depositRequests := assocUnset st.depositRequests index }

/-- Store.AddPendingTransfer: one atomic operation inserting the transfer
record — keyed by the origin tail, which becomes its only initial tail —
and removing all named input deposit requests. -/
def stAddPendingTransfer (st : AccountState) (tailHash : String) (trytes : List String)
    (indices : List Nat) : AccountState :=
  { st with
    pendingTransfers :=
      assocSet st.pendingTransfers tailHash { bundle := trytes, tails := [tailHash] },
    depositRequests := indices.foldl (fun l index => assocUnset l index) st.depositRequests }

/-- errors.Wrap: the wrapping message, a colon-space, the cause. -/
def wrapErr (msg e : String) : String := msg ++ ": " ++ e

/-- Oracles of the send pipeline: seed and clock reads, the configured
input-selection strategy called with (transferSum, balanceCheck=false),
address generation (key index, security level, checksum flag), and the node
API calls in pipeline order.  Bundles are modelled by their trytes. -/
structure SendEnv where
  seed : Except String String
  now : Except String Int
  inputSelection : Except String (Nat × List ISInput × List Nat)
  genAddr : Nat → Nat → Bool → Except String String
  securityLevel : Nat
  prepareTransfers : List ISInput → Option String → Except String (List String)
  gtta : Except String (String × String)
  attachToTangle : List String → Except String (List String)
  tailTxHash : List String → Except String String
  storeAndBroadcast : List String → Except String (List String)
  asBundle : List String → Except String (List String)

/-- Events emitted by the send pipeline. -/
inductive SendEvent where
  | sendingTransfer (bundle : List String)
  | errorEvent (msg : String)
  deriving DecidableEq, Repr

/-- What one send call produces: the store state it leaves behind, the
returned bundle or error, and the events emitted. -/
structure SendResult where
  finalState : AccountState
  result : Except String (List String)
  events : List SendEvent
  deriving Repr

/-- account.allocateDepositRequest: increment the key index, derive the
checksummed address, write the index, store the deposit request, return the
new state and the address. -/
def allocateDepositRequest (env : SendEnv) (st : AccountState) (req : Request) :
    Except String (AccountState × String) :=
  let newIndex := st.keyIndex + 1
  match env.genAddr newIndex env.securityLevel true with
  | Except.error e =>
    Except.error (wrapErr "unable to generate address in address gen. function" e)
  | Except.ok addr =>
    let st2 := stWriteIndex st newIndex
    let st3 := stAddDepositRequest st2 newIndex
      { securityLevel := env.securityLevel, request := req }
    Except.ok (st3, addr)

/-- The deferred cleanup of account.send: when a remainder address was
allocated and the operation did not succeed, scan the stored deposit
requests, derive each address without checksum, and remove the one whose
address matches the cropped (first 81 characters) remainder address; a
derivation error skips the entry.  In this model the store scan and removal
cannot fail, so no error event arises. -/
def cleanupRemainder (env : SendEnv) (st : AccountState) (remainderAddress : Option String)
    (success : Bool) : AccountState × List SendEvent :=
  match remainderAddress with
  | none => (st, [])
  | some addr =>
    if success then (st, [])
    else
      let cropped := String.mk (addr.data.take 81)
      match st.depositRequests.find? (fun p =>
        match env.genAddr p.1 p.2.securityLevel false with
        | Except.ok a => a == cropped
        | Except.error _ => false) with
      | none => (st, [])
      | some p => (stRemoveDepositRequest st p.1, [])

/-- Exit helper: every return path of account.send runs the deferred
cleanup before handing its result back. -/
def sendReturn (env : SendEnv) (st : AccountState) (remainderAddress : Option String)
    (success : Bool) (res : Except String (List String)) (events : List SendEvent) :
    SendResult :=
  let cleaned := cleanupRemainder env st remainderAddress success
  { finalState := cleaned.1, result := res, events := events ++ cleaned.2 }

/-- The part of account.send after input selection and remainder
allocation: prepare the bundle, select tips, perform proof of work, take
the tail transaction hash, commit through AddPendingTransfer (setting the
success flag), then store-and-broadcast and emit the SendingTransfer
event. -/
def sendAfterInputs (env : SendEnv) (st : AccountState) (inputs : List ISInput)
    (forRemoval : List Nat) (remainderAddress : Option String) : SendResult :=
  match env.prepareTransfers inputs remainderAddress with
  | Except.error e =>
    sendReturn env st remainderAddress false
      (Except.error (wrapErr "unable to prepare transfers in send op." e)) []
  | Except.ok bundleTrytes =>
    match env.gtta with
    | Except.error e =>
      sendReturn env st remainderAddress false
        (Except.error (wrapErr "unable to GTTA in send op." e)) []
    | Except.ok _ =>
      match env.attachToTangle bundleTrytes with
      | Except.error e =>
        sendReturn env st remainderAddress false
          (Except.error (wrapErr "performing PoW in send op. failed" e)) []
      | Except.ok powedTrytes =>
        match env.tailTxHash powedTrytes with
        | Except.error e =>
          sendReturn env st remainderAddress false (Except.error e) []
        | Except.ok tailHash =>
          let st2 := stAddPendingTransfer st tailHash powedTrytes forRemoval
          match env.storeAndBroadcast powedTrytes with
          | Except.error e =>
            sendReturn env st2 remainderAddress true
              (Except.error (wrapErr "unable to store/broadcast bundle in send op." e)) []
          | Except.ok bndlTrytes =>
            match env.asBundle bndlTrytes with
            | Except.error e =>
              sendReturn env st2 remainderAddress true (Except.error e) []
            | Except.ok bndl =>
              sendReturn env st2 remainderAddress true (Except.ok bndl)
                [SendEvent.sendingTransfer bndl]

/-- account.send: read the seed and the clock; for a value transfer run
input selection and, when the selected sum exceeds the transfer value,
allocate a remainder deposit request (nil timeout, expected amount = the
surplus); then run the rest of the pipeline. -/
def accountSend (env : SendEnv) (st : AccountState) (transferSum : Nat) : SendResult :=
  match env.seed with
  | Except.error e =>
    sendReturn env st none false
      (Except.error (wrapErr "unable to get seed from seed provider in send op." e)) []
  | Except.ok _ =>
    match env.now with
    | Except.error e =>
      sendReturn env st none false
        (Except.error (wrapErr "unable to get current time in send op." e)) []
    | Except.ok _ =>
      if transferSum > 0 then
        match env.inputSelection with
        | Except.error e =>
          sendReturn env st none false
            (Except.error (wrapErr "failed to perform input selection in send op." e)) []
        | Except.ok (sum, inputs, forRemoval) =>
          if sum > transferSum then
            match allocateDepositRequest env st
                { timeoutAt := none, multiUse := false,
                  expectedAmount := some (sum - transferSum) } with
            | Except.error e =>
              sendReturn env st none false
                (Except.error (wrapErr "unable to generate remainder address in send op." e)) []
            | Except.ok (st2, addr) =>
              sendAfterInputs env st2 inputs forRemoval (some addr)
          else sendAfterInputs env st inputs forRemoval none
      else sendAfterInputs env st [] [] none

/-- assocGet finds the binding assocSet just wrote. -/
theorem assocGet_assocSet_self [DecidableEq κ] (l : List (κ × α)) (k : κ) (v : α) :
    assocGet (assocSet l k v) k = some v := by
  induction l with
  | nil => simp [assocSet, assocGet]
  | cons hd tl ih =>
    obtain ⟨k0, v0⟩ := hd
    by_cases hk : k0 = k
    · simp [assocSet, hk, assocGet]
    · simp [assocSet, hk, assocGet, ih]

/-- assocUnset of a different key does not change a lookup. -/
theorem assocGet_assocUnset_ne [DecidableEq κ] (l : List (κ × α)) (k j : κ) (h : k ≠ j) :
    assocGet (assocUnset l j) k = assocGet l k := by
  induction l with
  | nil => rfl
  | cons hd tl ih =>
    obtain ⟨k0, v0⟩ := hd
    by_cases hj : k0 = j
    · subst hj
      have hk : ¬ k0 = k := fun hkk => h (hkk ▸ rfl)
      simp [assocUnset, assocGet, hk, ih]
      exact ih
    · by_cases hk : k0 = k
      · simp [assocUnset, assocGet, hj, hk, h]
      · simp [assocUnset, assocGet, hj, hk]
        simpa [assocUnset] using ih

/-- A fold of assocUnset steps over keys not containing k does not change
the lookup of k. -/
theorem assocGet_foldl_assocUnset_not_mem [DecidableEq κ] (inds : List κ)
    (l : List (κ × α)) (k : κ) (h : k ∉ inds) :
    assocGet (inds.foldl (fun acc j => assocUnset acc j) l) k = assocGet l k := by
  induction inds generalizing l with
  | nil => rfl
  | cons j rest ih =>
    have hj : k ≠ j := fun hkj => h (hkj ▸ List.mem_cons_self _ _)
    have hrest : k ∉ rest := fun hk => h (List.mem_cons_of_mem _ hk)
    rw [List.foldl_cons, ih (assocUnset l j) hrest, assocGet_assocUnset_ne l k j hj]

/-- C5: when every step of send up to and including the AddPendingTransfer
commit succeeds — including the allocation of a remainder deposit request —
and storeAndBroadcast then fails, send returns the wrapped broadcast error
to the caller while the committed pending transfer record stays in the
store and the allocated remainder deposit request is not removed by the
deferred cleanup (the success flag set at the commit suppresses it). -/
theorem send_broadcast_failure_state_durable
    (env : SendEnv) (st : AccountState) (transferSum sum : Nat)
    (sd : String) (nowV : Int) (inputs : List ISInput) (forRemoval : List Nat)
    (remAddr : String) (tips : String × String)
    (bundleTrytes powedTrytes : List String) (tailHash e : String)
    (hseed : env.seed = Except.ok sd)
    (hnow : env.now = Except.ok nowV)
    (hts : transferSum > 0)
    (hsel : env.inputSelection = Except.ok (sum, inputs, forRemoval))
    (hsum : sum > transferSum)
    (haddr : env.genAddr (st.keyIndex + 1) env.securityLevel true = Except.ok remAddr)
    (hprep : env.prepareTransfers inputs (some remAddr) = Except.ok bundleTrytes)
    (hgtta : env.gtta = Except.ok tips)
    (hattach : env.attachToTangle bundleTrytes = Except.ok powedTrytes)
    (htail : env.tailTxHash powedTrytes = Except.ok tailHash)
    (hbroadcast : env.storeAndBroadcast powedTrytes = Except.error e)
    (hfresh : (st.keyIndex + 1) ∉ forRemoval) :
    (accountSend env st transferSum).result =
      Except.error (wrapErr "unable to store/broadcast bundle in send op." e)
    ∧ assocGet (accountSend env st transferSum).finalState.pendingTransfers tailHash =
        some { bundle := powedTrytes, tails := [tailHash] }
    ∧ assocGet (accountSend env st transferSum).finalState.depositRequests
        (st.keyIndex + 1) =
        some { securityLevel := env.securityLevel,
               request := { timeoutAt := none, multiUse := false,
                            expectedAmount := some (sum - transferSum) } } := by
  have hEq : accountSend env st transferSum =
      { finalState :=
          stAddPendingTransfer
            (stAddDepositRequest (stWriteIndex st (st.keyIndex + 1)) (st.keyIndex + 1)
              { securityLevel := env.securityLevel,
                request := { timeoutAt := none, multiUse := false,
                             expectedAmount := some (sum - transferSum) } })
            tailHash powedTrytes forRemoval,
        result := Except.error (wrapErr "unable to store/broadcast bundle in send op." e),
        events := [] } := by
    unfold accountSend allocateDepositRequest
    rw [hseed, hnow]
    simp only [hts, if_true, ite_true, gt_iff_lt, decide_True]
    simp only [hsel, hsum, haddr]
    unfold sendAfterInputs sendReturn cleanupRemainder
    simp [hprep, hgtta, hattach, htail, hbroadcast]
  refine ⟨?_, ?_, ?_⟩
  · rw [hEq]
  · rw [hEq]
    simp only [stAddPendingTransfer]
    exact assocGet_assocSet_self _ _ _
  · rw [hEq]
    simp only [stAddPendingTransfer, stAddDepositRequest, stWriteIndex]
    rw [assocGet_foldl_assocUnset_not_mem forRemoval _ _ hfresh]
    exact assocGet_assocSet_self _ _ _

/-- A concrete environment in which everything up to the commit succeeds
and the broadcast fails. -/
def brokenBroadcastEnv : SendEnv :=
  { seed := Except.ok "SEED",
    now := Except.ok 1000,
    inputSelection := Except.ok (120, [⟨"INADDR", 1, 120, 2⟩], [1]),
    genAddr := fun _ _ _ => Except.ok "REMADDR",
    securityLevel := 2,
    prepareTransfers := fun _ _ => Except.ok ["PREPARED"],
    gtta := Except.ok ("TRUNK", "BRANCH"),
    attachToTangle := fun _ => Except.ok ["POWED"],
    tailTxHash := fun _ => Except.ok "TAILHASH",
    storeAndBroadcast := fun _ => Except.error "node down",
    asBundle := fun ts => Except.ok ts }

/-- The store state the broken-broadcast scenario starts from: one funded
deposit request at index 1, key index 1. -/
def brokenBroadcastState : AccountState :=
  { keyIndex := 1,
    depositRequests :=
      [(1, { securityLevel := 2,
             request := { timeoutAt := some 2000, multiUse := false,
                          expectedAmount := some 120 } })],
    pendingTransfers := [] }

/-- Witness for C5: in the concrete broken-broadcast scenario, send returns
the wrapped broadcast error, the pending transfer is in the store, and the
remainder deposit request allocated at index 2 survives. -/
theorem send_broadcast_failure_state_durable_witness :
    (accountSend brokenBroadcastEnv brokenBroadcastState 100).result =
      Except.error (wrapErr "unable to store/broadcast bundle in send op." "node down")
    ∧ assocGet
        ((accountSend brokenBroadcastEnv brokenBroadcastState 100).finalState.pendingTransfers)
        "TAILHASH" =
        some { bundle := ["POWED"], tails := ["TAILHASH"] }
    ∧ assocGet
        ((accountSend brokenBroadcastEnv brokenBroadcastState 100).finalState.depositRequests)
        2 =
        some { securityLevel := 2,
               request := { timeoutAt := none, multiUse := false,
                            expectedAmount := some 20 } } :=
  send_broadcast_failure_state_durable brokenBroadcastEnv brokenBroadcastState 100 120
    "SEED" 1000 [⟨"INADDR", 1, 120, 2⟩] [1] "REMADDR" ("TRUNK", "BRANCH")
    ["PREPARED"] ["POWED"] "TAILHASH" "node down"
    rfl rfl (by decide) rfl (by decide) rfl rfl rfl rfl rfl rfl (by decide)

/-! ## util — sync interval timer (SyncIntervalTimer)

NewSyncIntervalTimer allocates the inner time.Timer only when the interval
is positive; with interval = 0 the intervalTimer field stays nil and Start
enters the loop that only offers the pause rendezvous and the shutdown
signal — it has no tick case at all.  An execution of the Start loop is
modelled as the sequence of select cases its iterations resolve to; the
tick function f runs exactly once per resolved tick case. -/

/-- Whether NewSyncIntervalTimer allocates the inner timer: only for a
positive interval. -/
def intervalTimerPresent (interval : Int) : Bool := interval > 0

/-- The select cases a Start loop iteration can resolve to. -/
inductive TimerSelectCase where
  | tick
  | pauseResume
  | shutdownSignal
  deriving DecidableEq, Repr

/-- The select cases enabled in the Start loop: without an inner timer
(loop exitA of the source) only the pause rendezvous and shutdown exist;
with one (loop exitB) the tick case exists as well. -/
def enabledCases (hasIntervalTimer : Bool) : List TimerSelectCase :=
  if hasIntervalTimer then
    [TimerSelectCase.tick, TimerSelectCase.pauseResume, TimerSelectCase.shutdownSignal]
  else [TimerSelectCase.pauseResume, TimerSelectCase.shutdownSignal]

/-- An execution of the Start loop of a timer built with the given
interval: every iteration resolves to one of the enabled select cases. -/
def startExecValid (interval : Int) (exec : List TimerSelectCase) : Prop :=
  ∀ c ∈ exec, c ∈ enabledCases (intervalTimerPresent interval)

/-- How often the execution runs the tick function f. -/
def fCallCount (exec : List TimerSelectCase) : Nat :=
  exec.count TimerSelectCase.tick

/-- C9: a SyncIntervalTimer built with interval = 0 never invokes its tick
function: its Start loop has no tick select case, so every valid execution
calls f zero times. -/
theorem syncIntervalTimer_zero_interval_never_ticks
    (exec : List TimerSelectCase) (h : startExecValid 0 exec) :
    fCallCount exec = 0 := by
  rw [fCallCount, List.count_eq_zero]
  intro hmem
  have := h TimerSelectCase.tick hmem
  simp [enabledCases, intervalTimerPresent] at this

/-- Witness for C9: a concrete execution that pauses, resumes and shuts
down is valid for the interval-0 timer and calls f zero times. -/
theorem syncIntervalTimer_zero_interval_never_ticks_witness :
    startExecValid 0 [TimerSelectCase.pauseResume, TimerSelectCase.shutdownSignal]
    ∧ fCallCount [TimerSelectCase.pauseResume, TimerSelectCase.shutdownSignal] = 0 := by
  have hval : startExecValid 0
      [TimerSelectCase.pauseResume, TimerSelectCase.shutdownSignal] := by
    intro c hc
    simp only [List.mem_cons, List.not_mem_nil, or_false] at hc
    rcases hc with h | h <;> simp [h, enabledCases, intervalTimerPresent]
  exact ⟨hval, syncIntervalTimer_zero_interval_never_ticks _ hval⟩

end IotaAccount
